import Mathlib

/-!
Verification of the meetup processor from `hw2_q2.py`.

The data model and the operations below are translated from the source:
the `Condition` enumeration, the `Agent` record (fields `name` and
`category`), the nested helper `process_pair`, the two filters binding
`meeting_agents` and `non_meeting_agents`, the pair-consuming loop
(`pairUp` below), and `meetup` itself.
-/

namespace HW2Q2

/-- The `Condition` enumeration of the source, line 4. -/
inductive Condition where
  | CURE
  | HEALTHY
  | SICK
  | DYING
  | DEAD
deriving DecidableEq, Repr

/-- The `Agent` named tuple of the source, line 5: a `name` and a `category`. -/
structure Agent where
  name : String
  category : Condition
deriving DecidableEq, Repr

/-- Nested helper `process_pair` of the source (lines 34 to 76): the cascade of
conditionals deciding the outcome of one meeting between agents `a` and `b`. -/
def process_pair (a b : Agent) : List Agent :=
  if a.category = Condition.HEALTHY ∨ a.category = Condition.DEAD ∨
      b.category = Condition.HEALTHY ∨ b.category = Condition.DEAD then
    [a, b]
  else if a.category = Condition.CURE ∧ b.category ≠ Condition.CURE then
    let new_b_category :=
      if b.category = Condition.SICK then Condition.HEALTHY
      else if b.category = Condition.DYING then Condition.SICK
      else b.category
    [a, ⟨b.name, new_b_category⟩]
  else if b.category = Condition.CURE ∧ a.category ≠ Condition.CURE then
    let new_a_category :=
      if a.category = Condition.SICK then Condition.HEALTHY
      else if a.category = Condition.DYING then Condition.SICK
      else a.category
    [⟨a.name, new_a_category⟩, b]
  else if a.category = Condition.CURE ∧ b.category = Condition.CURE then
    [a, b]
  else if a.category = Condition.SICK ∧ b.category = Condition.SICK then
    [⟨a.name, Condition.DYING⟩, ⟨b.name, Condition.DYING⟩]
  else if a.category = Condition.SICK ∧ b.category = Condition.DYING then
    [⟨a.name, Condition.DYING⟩, ⟨b.name, Condition.DEAD⟩]
  else if a.category = Condition.DYING ∧ b.category = Condition.SICK then
    [⟨a.name, Condition.DEAD⟩, ⟨b.name, Condition.DYING⟩]
  else if a.category = Condition.DYING ∧ b.category = Condition.DYING then
    [⟨a.name, Condition.DEAD⟩, ⟨b.name, Condition.DEAD⟩]
  else
    [a, b]

/-- Which branch of the `process_pair` cascade fires: `0` is the defensive
HEALTHY or DEAD early return (lines 37 and 38), `1` to `8` are the listed
rules in source order, and `9` is the final leave-unchanged fallback
(lines 75 and 76). The conditions are the same ones as in `process_pair`. -/
def process_pair_branch (a b : Agent) : Nat :=
  if a.category = Condition.HEALTHY ∨ a.category = Condition.DEAD ∨
      b.category = Condition.HEALTHY ∨ b.category = Condition.DEAD then 0
  else if a.category = Condition.CURE ∧ b.category ≠ Condition.CURE then 1
  else if b.category = Condition.CURE ∧ a.category ≠ Condition.CURE then 2
  else if a.category = Condition.CURE ∧ b.category = Condition.CURE then 3
  else if a.category = Condition.SICK ∧ b.category = Condition.SICK then 4
  else if a.category = Condition.SICK ∧ b.category = Condition.DYING then 5
  else if a.category = Condition.DYING ∧ b.category = Condition.SICK then 6
  else if a.category = Condition.DYING ∧ b.category = Condition.DYING then 7
  else 9

/-- The first filter of `meetup` (source line 79): agents whose category is
not HEALTHY and not DEAD take part in meetings. -/
def meeting_agents (agent_listing : List Agent) : List Agent :=
  agent_listing.filter fun agent =>
    !(decide (agent.category = Condition.HEALTHY ∨ agent.category = Condition.DEAD))

/-- The second filter of `meetup` (source line 80): agents whose category is
HEALTHY or DEAD do not take part. -/
def non_meeting_agents (agent_listing : List Agent) : List Agent :=
  agent_listing.filter fun agent =>
    decide (agent.category = Condition.HEALTHY ∨ agent.category = Condition.DEAD)

/-- The pair-consuming loop of `meetup` (source lines 85 to 93): take the
participating agents two at a time, process each pair; a final unpaired
agent is appended unchanged. -/
def pairUp : List Agent → List Agent
  | [] => []
  | [a] => [a]
  | a :: b :: rest => process_pair a b ++ pairUp rest

/-- `meetup` (source lines 8 to 98): process the participating agents in
pairs, then append the non-participating agents. -/
def meetup (agent_listing : List Agent) : List Agent :=
  pairUp (meeting_agents agent_listing) ++ non_meeting_agents agent_listing

/-- Transition table of section 4 of the spec, written from the words of the
spec for comparison with `process_pair`: the new pair of states for an
ordered pair of participating states. -/
def specTransition : Condition → Condition → Condition × Condition
  | Condition.CURE, Condition.SICK => (Condition.CURE, Condition.HEALTHY)
  | Condition.CURE, Condition.DYING => (Condition.CURE, Condition.SICK)
  | Condition.CURE, Condition.CURE => (Condition.CURE, Condition.CURE)
  | Condition.SICK, Condition.CURE => (Condition.HEALTHY, Condition.CURE)
  | Condition.DYING, Condition.CURE => (Condition.SICK, Condition.CURE)
  | Condition.SICK, Condition.SICK => (Condition.DYING, Condition.DYING)
  | Condition.SICK, Condition.DYING => (Condition.DYING, Condition.DEAD)
  | Condition.DYING, Condition.SICK => (Condition.DEAD, Condition.DYING)
  | Condition.DYING, Condition.DYING => (Condition.DEAD, Condition.DEAD)
  | a, b => (a, b)

/-! ### Helper lemmas shared between the claim theorems -/

/-- Every branch of `process_pair` returns exactly the two incoming names,
in order. -/
theorem process_pair_names (a b : Agent) :
    (process_pair a b).map Agent.name = [a.name, b.name] := by
  unfold process_pair
  split_ifs <;> simp

/-- `process_pair` always returns exactly two agents. -/
theorem process_pair_length (a b : Agent) : (process_pair a b).length = 2 := by
  unfold process_pair
  split_ifs <;> simp

/-- The pair loop preserves the ordered list of names. -/
theorem pairUp_names : ∀ xs : List Agent, (pairUp xs).map Agent.name = xs.map Agent.name
  | [] => by simp [pairUp]
  | [a] => by simp [pairUp]
  | a :: b :: rest => by
      simp [pairUp, process_pair_names, pairUp_names rest]

/-- The pair loop preserves length. -/
theorem pairUp_length : ∀ xs : List Agent, (pairUp xs).length = xs.length
  | [] => by simp [pairUp]
  | [a] => by simp [pairUp]
  | a :: b :: rest => by
      simp [pairUp, process_pair_length, pairUp_length rest]
      omega

/-- Splitting a list with the two filters of `meetup` is a permutation of
the list. -/
theorem meeting_split_perm (l : List Agent) :
    List.Perm (meeting_agents l ++ non_meeting_agents l) l := by
  have h := List.filter_append_perm
    (fun agent =>
      !(decide (agent.category = Condition.HEALTHY ∨ agent.category = Condition.DEAD))) l
  simpa [meeting_agents, non_meeting_agents, Bool.not_not] using h

/-- Appending one agent to an even-length list lets the pair loop carry it
through unchanged. -/
theorem pairUp_even_append (z : Agent) :
    ∀ ys : List Agent, ys.length % 2 = 0 → pairUp (ys ++ [z]) = pairUp ys ++ [z]
  | [], _ => by simp [pairUp]
  | [a], h => by simp at h
  | a :: b :: rest, h => by
      have hr : rest.length % 2 = 0 := by
        simp [List.length_cons] at h
        omega
      simp [pairUp, pairUp_even_append z rest hr]

/-- An agent with state CURE occurs in the output of `process_pair` exactly
when it is one of the two inputs. -/
theorem mem_cure_process_pair (n : String) (a b : Agent) :
    (⟨n, Condition.CURE⟩ : Agent) ∈ process_pair a b ↔
      ((⟨n, Condition.CURE⟩ : Agent) = a ∨ (⟨n, Condition.CURE⟩ : Agent) = b) := by
  obtain ⟨na, ca⟩ := a
  obtain ⟨nb, cb⟩ := b
  cases ca <;> cases cb <;> simp [process_pair, Agent.mk.injEq]

/-- An agent with state CURE occurs in the output of the pair loop exactly
when it occurs in the input. -/
theorem mem_cure_pairUp (n : String) :
    ∀ xs : List Agent,
      (⟨n, Condition.CURE⟩ : Agent) ∈ pairUp xs ↔ (⟨n, Condition.CURE⟩ : Agent) ∈ xs
  | [] => by simp [pairUp]
  | [a] => by simp [pairUp]
  | a :: b :: rest => by
      simp only [pairUp, List.mem_append, mem_cure_process_pair,
        mem_cure_pairUp n rest, List.mem_cons]
      tauto

/-! ### Claim theorems -/

/-- Claim C1: for every ordered pair of agents whose states are both in
the set containing CURE, SICK and DYING, `process_pair` produces exactly
the states of the table in section 4 of the spec (`specTransition`),
each agent keeping its name. -/
theorem c1_process_pair_matches_table (na nb : String) (sa sb : Condition)
    (ha : sa = Condition.CURE ∨ sa = Condition.SICK ∨ sa = Condition.DYING)
    (hb : sb = Condition.CURE ∨ sb = Condition.SICK ∨ sb = Condition.DYING) :
    process_pair ⟨na, sa⟩ ⟨nb, sb⟩ =
      [⟨na, (specTransition sa sb).1⟩, ⟨nb, (specTransition sa sb).2⟩] := by
  cases sa <;> cases sb <;>
    simp_all [process_pair, specTransition]

/-- Witness for C1 at the concrete pair (CURE, SICK). -/
theorem c1_witness :
    process_pair ⟨"A", Condition.CURE⟩ ⟨"B", Condition.SICK⟩ =
      [⟨"A", (specTransition Condition.CURE Condition.SICK).1⟩,
       ⟨"B", (specTransition Condition.CURE Condition.SICK).2⟩] :=
  c1_process_pair_matches_table "A" "B" Condition.CURE Condition.SICK
    (Or.inl rfl) (Or.inr (Or.inl rfl))

/-- Claim C7: the per-pair transition is symmetric: for agents with states
in the set containing CURE, SICK and DYING, processing the swapped pair
yields exactly the swap (reversal) of the result of processing the
original pair. -/
theorem c7_process_pair_symmetric (a b : Agent)
    (ha : a.category = Condition.CURE ∨ a.category = Condition.SICK ∨
      a.category = Condition.DYING)
    (hb : b.category = Condition.CURE ∨ b.category = Condition.SICK ∨
      b.category = Condition.DYING) :
    process_pair b a = (process_pair a b).reverse := by
  obtain ⟨na, sa⟩ := a
  obtain ⟨nb, sb⟩ := b
  cases sa <;> cases sb <;>
    simp_all [process_pair]

/-- Witness for C7 at the concrete pair (SICK, DYING). -/
theorem c7_witness :
    process_pair ⟨"B", Condition.DYING⟩ ⟨"A", Condition.SICK⟩ =
      (process_pair ⟨"A", Condition.SICK⟩ ⟨"B", Condition.DYING⟩).reverse :=
  c7_process_pair_symmetric ⟨"A", Condition.SICK⟩ ⟨"B", Condition.DYING⟩
    (Or.inr (Or.inl rfl)) (Or.inr (Or.inr rfl))

/-- Claim C2: for every input, the multiset of agent names in the output of
`meetup` equals the multiset of names in the input, and the output has
exactly as many agents as the input. -/
theorem c2_names_multiset_and_length_preserved (l : List Agent) :
    (((meetup l).map Agent.name : List String) : Multiset String) =
      ((l.map Agent.name : List String) : Multiset String) ∧
    (meetup l).length = l.length := by
  have hperm := meeting_split_perm l
  constructor
  · have hnames : (meetup l).map Agent.name =
        (meeting_agents l ++ non_meeting_agents l).map Agent.name := by
      simp [meetup, pairUp_names]
    rw [hnames]
    exact Multiset.coe_eq_coe.mpr (hperm.map Agent.name)
  · have hlen := hperm.length_eq
    simp only [List.length_append] at hlen
    simp only [meetup, List.length_append, pairUp_length]
    omega

/-- Claim C3: the output of `meetup` is the processed participating-group
agents followed by the non-participating (HEALTHY or DEAD) agents in their
original relative order, and in particular the concrete scenario
[(A,HEALTHY),(B,SICK),(C,DEAD)] maps to [(B,SICK),(A,HEALTHY),(C,DEAD)]. -/
theorem c3_reassembly_order (l : List Agent) :
    meetup l =
      pairUp (l.filter fun a =>
        decide (a.category ≠ Condition.HEALTHY ∧ a.category ≠ Condition.DEAD)) ++
      l.filter (fun a =>
        decide (a.category = Condition.HEALTHY ∨ a.category = Condition.DEAD)) ∧
    meetup [⟨"A", Condition.HEALTHY⟩, ⟨"B", Condition.SICK⟩, ⟨"C", Condition.DEAD⟩] =
      [⟨"B", Condition.SICK⟩, ⟨"A", Condition.HEALTHY⟩, ⟨"C", Condition.DEAD⟩] := by
  refine ⟨?_, by decide⟩
  have hpred : (fun a : Agent =>
        decide (a.category ≠ Condition.HEALTHY ∧ a.category ≠ Condition.DEAD)) =
      fun a : Agent =>
        !(decide (a.category = Condition.HEALTHY ∨ a.category = Condition.DEAD)) := by
    funext a
    by_cases h1 : a.category = Condition.HEALTHY <;>
      by_cases h2 : a.category = Condition.DEAD <;> simp [h1, h2]
  rw [hpred]
  rfl

/-- Claim C4: pairing consumes only the participating subsequence: removing
an inserted HEALTHY or DEAD agent does not change the participating group,
the loop pairs consecutive participating agents, and two participating
agents separated by a non-participant are still paired together. -/
theorem c4_pairing_skips_non_participants (l1 l2 : List Agent) (x : Agent)
    (hx : x.category = Condition.HEALTHY ∨ x.category = Condition.DEAD) :
    meeting_agents (l1 ++ x :: l2) = meeting_agents (l1 ++ l2) ∧
    (∀ a b rest, pairUp (a :: b :: rest) = process_pair a b ++ pairUp rest) ∧
    meetup [⟨"A", Condition.SICK⟩, ⟨"X", Condition.HEALTHY⟩, ⟨"B", Condition.SICK⟩] =
      [⟨"A", Condition.DYING⟩, ⟨"B", Condition.DYING⟩, ⟨"X", Condition.HEALTHY⟩] := by
  refine ⟨?_, fun a b rest => rfl, by decide⟩
  rcases hx with h | h <;>
    simp [meeting_agents, List.filter_append, List.filter_cons, h]

/-- Witness for C4: inserting the HEALTHY agent X between A and B leaves the
participating group unchanged. -/
theorem c4_witness :
    meeting_agents ([⟨"A", Condition.SICK⟩] ++
        (⟨"X", Condition.HEALTHY⟩ : Agent) :: [⟨"B", Condition.SICK⟩]) =
      meeting_agents ([⟨"A", Condition.SICK⟩] ++ [⟨"B", Condition.SICK⟩]) :=
  (c4_pairing_skips_non_participants [⟨"A", Condition.SICK⟩] [⟨"B", Condition.SICK⟩]
    ⟨"X", Condition.HEALTHY⟩ (Or.inl rfl)).1

/-- Claim C5: when the participating group has odd length, the final
unpaired participating agent appears in the output unchanged, between the
processed pairs and the non-participants; in particular [(A,SICK)] maps to
[(A,SICK)]. -/
theorem c5_odd_leftover_unchanged (l ys : List Agent) (z : Agent)
    (hsplit : meeting_agents l = ys ++ [z]) (heven : ys.length % 2 = 0) :
    meetup l = pairUp ys ++ z :: non_meeting_agents l ∧
    meetup [⟨"A", Condition.SICK⟩] = [⟨"A", Condition.SICK⟩] := by
  refine ⟨?_, by decide⟩
  simp [meetup, hsplit, pairUp_even_append z ys heven]

/-- Witness for C5 at the single-agent input [(A,SICK)]. -/
theorem c5_witness :
    meetup [⟨"A", Condition.SICK⟩] =
      pairUp [] ++ (⟨"A", Condition.SICK⟩ : Agent) ::
        non_meeting_agents [⟨"A", Condition.SICK⟩] :=
  (c5_odd_leftover_unchanged [⟨"A", Condition.SICK⟩] [] ⟨"A", Condition.SICK⟩
    (by decide) (by decide)).1

/-- Claim C6: every agent whose input state is HEALTHY or DEAD appears in
the output of `meetup` with the same name and the same state. -/
theorem c6_healthy_dead_unchanged (l : List Agent) (a : Agent) (hmem : a ∈ l)
    (ha : a.category = Condition.HEALTHY ∨ a.category = Condition.DEAD) :
    a ∈ meetup l := by
  have hnm : a ∈ non_meeting_agents l := by
    simp [non_meeting_agents, List.mem_filter, hmem, ha]
  rw [meetup]
  exact List.mem_append_right _ hnm

/-- Witness for C6: the HEALTHY agent A of a concrete listing survives. -/
theorem c6_witness :
    (⟨"A", Condition.HEALTHY⟩ : Agent) ∈
      meetup [⟨"A", Condition.HEALTHY⟩, ⟨"B", Condition.SICK⟩] :=
  c6_healthy_dead_unchanged [⟨"A", Condition.HEALTHY⟩, ⟨"B", Condition.SICK⟩]
    ⟨"A", Condition.HEALTHY⟩ (by decide) (Or.inl rfl)

/-- Claim C8: for every pair drawn from the participating group of `meetup`,
neither the HEALTHY or DEAD early-return guard (branch 0) nor the final
leave-unchanged fallback (branch 9) of `process_pair` fires. -/
theorem c8_defensive_branches_unreachable (l : List Agent) (a b : Agent)
    (hma : a ∈ meeting_agents l) (hmb : b ∈ meeting_agents l) :
    process_pair_branch a b ≠ 0 ∧ process_pair_branch a b ≠ 9 := by
  have ha : ¬(a.category = Condition.HEALTHY ∨ a.category = Condition.DEAD) := by
    have := (List.mem_filter.mp hma).2
    simpa using this
  have hb : ¬(b.category = Condition.HEALTHY ∨ b.category = Condition.DEAD) := by
    have := (List.mem_filter.mp hmb).2
    simpa using this
  obtain ⟨na, ca⟩ := a
  obtain ⟨nb, cb⟩ := b
  cases ca <;> cases cb <;> simp_all [process_pair_branch]

/-- Witness for C8 at the participating pair (A,SICK), (B,DYING). -/
theorem c8_witness :
    process_pair_branch ⟨"A", Condition.SICK⟩ ⟨"B", Condition.DYING⟩ ≠ 0 ∧
      process_pair_branch ⟨"A", Condition.SICK⟩ ⟨"B", Condition.DYING⟩ ≠ 9 :=
  c8_defensive_branches_unreachable
    [⟨"A", Condition.SICK⟩, ⟨"B", Condition.DYING⟩]
    ⟨"A", Condition.SICK⟩ ⟨"B", Condition.DYING⟩ (by decide) (by decide)

/-- Claim C9: the modelled `meetup` is a total function and returns a list on
the zero-length input. The source file itself, however, cannot run: line 32
dedents an import statement to module level inside the body of `meetup`, so
loading the module stops with an indentation error before `meetup` exists. -/
theorem c9_meetup_on_empty : meetup [] = [] := rfl

/-- Claim C10: the set of CURE agents is exactly preserved: an agent with a
given name appears in the output of `meetup` with state CURE precisely when
that agent appeared in the input with state CURE. -/
theorem c10_cure_set_preserved (l : List Agent) (n : String) :
    (⟨n, Condition.CURE⟩ : Agent) ∈ meetup l ↔
      (⟨n, Condition.CURE⟩ : Agent) ∈ l := by
  have h1 := mem_cure_pairUp n (meeting_agents l)
  rw [meetup, List.mem_append, h1]
  simp [meeting_agents, non_meeting_agents, List.mem_filter]

end HW2Q2
